import Mathlib

/-!
Verification development for the dual-node image-blending pipeline
(`src/pipelines/blend_images_pipeline.py`).  Python strings are modelled
as `List Char`, Python runtime values as the inductive `PyVal`, and the
pipeline's generator body as a function producing the list of yielded
messages, the list of collaborator calls, and the exception (if any)
that escapes the generator's boundary.  Raisable Python steps are
modelled with `Except`; exception payloads are the text `str(e)` would
produce.
-/

set_option maxRecDepth 20000

/-- Python strings, modelled as lists of characters. -/
abbrev Str := List Char

/-- Conversion from Lean string literals to the `Str` model. -/
def sl (s : String) : Str := s.toList

/-- The single-quote character (written via its code point). -/
def sqc : Char := Char.ofNat 39

/-- Whitespace as recognized by Python's `str.strip` and the regex class
`\s` (ASCII whitespace plus the Unicode space characters). -/
def pyIsSpace (c : Char) : Bool :=
  let n := c.toNat
  (9 ≤ n && n ≤ 13) || n == 32 || (28 ≤ n && n ≤ 31) || n == 133 || n == 160 ||
  n == 5760 || (8192 ≤ n && n ≤ 8202) || n == 8232 || n == 8233 ||
  n == 8239 || n == 8287 || n == 12288

/-- Drop leading Python whitespace (`str.lstrip`). -/
def dropLeadWs (s : Str) : Str := s.dropWhile pyIsSpace

/-- Drop trailing Python whitespace (`str.rstrip`). -/
def dropTrailWs (s : Str) : Str := (s.reverse.dropWhile pyIsSpace).reverse

/-- Python's `str.strip()`. -/
def pyStrip (s : Str) : Str := dropTrailWs (dropLeadWs s)

/-- Python runtime values as they occur in the pipeline: `None`, booleans,
integers, floats (kept as their literal/canonical text, since no claim
depends on float arithmetic), strings, lists and insertion-ordered dicts
with string keys. -/
inductive PyVal where
  | none
  | bool (b : Bool)
  | int (n : Int)
  | float (lit : Str)
  | str (s : Str)
  | list (xs : List PyVal)
  | dict (kvs : List (Str × PyVal))

/-- Association-list lookup, first binding wins (Python dicts hold at most
one binding per key, so the first binding is the binding). -/
def alookup (k : Str) : List (Str × PyVal) → Option PyVal
  | [] => Option.none
  | (k', v) :: r => if k' = k then Option.some v else alookup k r

/-- Truthiness of a float literal: zero mantissa (ignoring any exponent)
is falsy, `nan`/`inf` are truthy. -/
def floatTruthy (lit : Str) : Bool :=
  if lit = sl "nan" || lit = sl "inf" || lit = sl "-inf" then true
  else (lit.takeWhile (fun c => c ≠ 'e' && c ≠ 'E')).any
    (fun c => '1' ≤ c && c ≤ '9')

/-- Python truthiness (`bool(v)`). -/
def pyTruthy : PyVal → Bool
  | .none => false
  | .bool b => b
  | .int n => n != 0
  | .float lit => floatTruthy lit
  | .str s => !s.isEmpty
  | .list xs => !xs.isEmpty
  | .dict kvs => !kvs.isEmpty

/-- Decimal rendering of a natural number. -/
def natToStr (n : Nat) : Str := Nat.toDigits 10 n

/-- Decimal rendering of an integer (Python `str(int)`). -/
def intToStr (i : Int) : Str :=
  if i < 0 then '-' :: natToStr i.natAbs else natToStr i.natAbs

/-- Python type name, as it appears in error messages. -/
def pyTypeName : PyVal → Str
  | .none => sl "NoneType"
  | .bool _ => sl "bool"
  | .int _ => sl "int"
  | .float _ => sl "float"
  | .str _ => sl "str"
  | .list _ => sl "list"
  | .dict _ => sl "dict"

/-- Text of `str(AttributeError(...))` for a missing attribute. -/
def attrMsg (v : PyVal) (attr : Str) : Str :=
  [sqc] ++ pyTypeName v ++ [sqc] ++ sl " object has no attribute " ++
  [sqc] ++ attr ++ [sqc]

/-- Two hexadecimal digits for a byte (used by JSON string escapes). -/
def hex2 (n : Nat) : Str :=
  let d := fun m => if m < 10 then Char.ofNat (48 + m) else Char.ofNat (87 + m)
  [d (n / 16 % 16), d (n % 16)]

/-- Escape one character as `json.dumps` (with `ensure_ascii=False`) does. -/
def jsonEscapeChar (c : Char) : Str :=
  if c = '"' then ['\\', '"']
  else if c = '\\' then ['\\', '\\']
  else if c = '\n' then ['\\', 'n']
  else if c = '\r' then ['\\', 'r']
  else if c = '\t' then ['\\', 't']
  else if c.toNat == 8 then ['\\', 'b']
  else if c.toNat == 12 then ['\\', 'f']
  else if c.toNat < 32 then ['\\', 'u', '0', '0'] ++ hex2 c.toNat
  else [c]

/-- JSON rendering of a string (quoted, escaped, non-ASCII kept as-is). -/
def jsonQuote (s : Str) : Str :=
  '"' :: (s.flatMap jsonEscapeChar) ++ ['"']

mutual

/-- `json.dumps(v, ensure_ascii=False)` with the default separators;
dicts are serialized in insertion order (the source does not pass
`sort_keys`). -/
def jsonDumps : PyVal → Str
  | .none => sl "null"
  | .bool true => sl "true"
  | .bool false => sl "false"
  | .int i => intToStr i
  | .float lit => lit
  | .str s => jsonQuote s
  | .list xs =>
      '[' :: (List.intercalate (sl ", ") (jsonDumpsList xs)) ++ [']']
  | .dict kvs =>
      Char.ofNat 123 ::
        (List.intercalate (sl ", ") (jsonDumpsPairs kvs)) ++ [Char.ofNat 125]

/-- Serialize each element of a JSON array. -/
def jsonDumpsList : List PyVal → List Str
  | [] => []
  | v :: r => jsonDumps v :: jsonDumpsList r

/-- Serialize each `"key": value` entry of a JSON object. -/
def jsonDumpsPairs : List (Str × PyVal) → List Str
  | [] => []
  | (k, v) :: r => (jsonQuote k ++ sl ": " ++ jsonDumps v) :: jsonDumpsPairs r

end

/-- Escape one character as Python `repr` of a string does (`qc` is the
chosen delimiter quote). -/
def pyReprEscapeChar (qc : Char) (c : Char) : Str :=
  if c = '\\' then ['\\', '\\']
  else if c = qc then ['\\', qc]
  else if c = '\n' then ['\\', 'n']
  else if c = '\r' then ['\\', 'r']
  else if c = '\t' then ['\\', 't']
  else if c.toNat < 32 then ['\\', 'x'] ++ hex2 c.toNat
  else [c]

/-- Python `repr` of a string: single-quoted unless the text contains a
single quote and no double quote. -/
def pyReprStr (s : Str) : Str :=
  let qc := if s.contains sqc && !s.contains '"' then '"' else sqc
  qc :: (s.flatMap (pyReprEscapeChar qc)) ++ [qc]

mutual

/-- Python `repr(v)`. -/
def pyRepr : PyVal → Str
  | .none => sl "None"
  | .bool true => sl "True"
  | .bool false => sl "False"
  | .int i => intToStr i
  | .float lit => lit
  | .str s => pyReprStr s
  | .list xs =>
      '[' :: (List.intercalate (sl ", ") (pyReprList xs)) ++ [']']
  | .dict kvs =>
      Char.ofNat 123 ::
        (List.intercalate (sl ", ") (pyReprPairs kvs)) ++ [Char.ofNat 125]

/-- `repr` of each element of a list. -/
def pyReprList : List PyVal → List Str
  | [] => []
  | v :: r => pyRepr v :: pyReprList r

/-- `repr` of each `key: value` entry of a dict. -/
def pyReprPairs : List (Str × PyVal) → List Str
  | [] => []
  | (k, v) :: r => (pyReprStr k ++ sl ": " ++ pyRepr v) :: pyReprPairs r

end

/-- Python `str(v)`: the identity on strings, `repr`-based elsewhere. -/
def pyStr (v : PyVal) : Str :=
  match v with
  | .str s => s
  | v => pyRepr v

/-- The fixed 8-key trait vocabulary, in the declared order
(`keys_order` in `_traits_to_compact_line`). -/
def keysOrder : List Str :=
  [sl "primary_subject", sl "color_palette", sl "dominant_textures",
   sl "scene_type", sl "lighting", sl "composition",
   sl "notable_features", sl "style"]

/-- The fallback key `"raw"`. -/
def rawKey : Str := sl "raw"

/-- `k.replace('_', ' ')`. -/
def underscoreToSpace (k : Str) : Str :=
  k.map (fun c => if c = '_' then ' ' else c)

/-- `Pipeline._traits_to_compact_line`: non-dicts are stringified, the
one-entry `raw` fallback is returned verbatim, otherwise the vocabulary
keys are emitted in declared order and joined with `"; "`, falling back
to `json.dumps` when no recognized key has a truthy value. -/
def traitsToCompactLine (traits : PyVal) : PyVal :=
  match traits with
  | .dict kvs =>
      if (alookup rawKey kvs).isSome ∧ kvs.length = 1 then
        (alookup rawKey kvs).getD .none
      else
        let parts := keysOrder.filterMap (fun k =>
          let v := (alookup k kvs).getD .none
          if pyTruthy v then
            Option.some (underscoreToSpace k ++ sl ": " ++ pyStr v)
          else Option.none)
        if parts = [] then .str (jsonDumps (.dict kvs))
        else .str (List.intercalate (sl "; ") parts)
  | v => .str (pyStr v)

/-- Substring occurrence test, Python's `needle in hay` (via `IsInfix`,
which is decidable). -/
def strContainsSub (hay needle : Str) : Prop := needle <:+: hay

instance (hay needle : Str) : Decidable (strContainsSub hay needle) :=
  List.decidableInfix needle hay

/-- `s.split(",", 1)`: split at the first comma only. -/
def pySplitComma1 (s : Str) : List Str :=
  let pre := s.takeWhile (fun c => c ≠ ',')
  match s.dropWhile (fun c => c ≠ ',') with
  | [] => [s]
  | _ :: post => [pre, post]

/-- `Pipeline._to_b64_payload`: strip a data-URL prefix when the text has
a comma and mentions `base64` within its first 60 characters (the
`str(...)` coercion is the identity here since the claim quantifies over
strings). -/
def toB64Payload (s : Str) : Str :=
  if (',' ∈ s) ∧ strContainsSub (s.take 60) (sl "base64") then
    ((pySplitComma1 s).getLast?).getD s
  else s

/-- JSON whitespace (the only characters `json.loads` skips between
tokens: space, tab, line feed, carriage return). -/
def jsonWs (c : Char) : Bool :=
  c == ' ' || c == '\t' || c == '\n' || c == '\r'

/-- Skip JSON whitespace. -/
def skipWs (s : Str) : Str := s.dropWhile jsonWs

/-- Value of a hexadecimal digit. -/
def hexVal (c : Char) : Option Nat :=
  if '0' ≤ c ∧ c ≤ '9' then Option.some (c.toNat - 48)
  else if 'a' ≤ c ∧ c ≤ 'f' then Option.some (c.toNat - 87)
  else if 'A' ≤ c ∧ c ≤ 'F' then Option.some (c.toNat - 55)
  else Option.none

/-- Parse exactly four hexadecimal digits (the `\uXXXX` escape body). -/
def parseHex4 : Str → Option (Nat × Str)
  | a :: b :: c :: d :: rest =>
    match hexVal a, hexVal b, hexVal c, hexVal d with
    | Option.some x, Option.some y, Option.some z, Option.some w =>
        Option.some (((x * 16 + y) * 16 + z) * 16 + w, rest)
    | _, _, _, _ => Option.none
  | _ => Option.none

/-- Single-character JSON escapes. -/
def jsonEscTable (c : Char) : Option Char :=
  if c = '"' then Option.some '"'
  else if c = '\\' then Option.some '\\'
  else if c = '/' then Option.some '/'
  else if c = 'b' then Option.some (Char.ofNat 8)
  else if c = 'f' then Option.some (Char.ofNat 12)
  else if c = 'n' then Option.some '\n'
  else if c = 'r' then Option.some '\r'
  else if c = 't' then Option.some '\t'
  else Option.none

/-- Parse the body of a JSON string (after the opening quote), strict
mode: unescaped control characters are rejected, `\uXXXX` surrogate
pairs are combined.  (Lone surrogates, which Python would keep, fall
outside Lean's `Char` scalar values and are mapped through
`Char.ofNat`; no claim exercises them.) -/
def parseJStr : Nat → Str → Option (Str × Str)
  | 0, _ => Option.none
  | _ + 1, [] => Option.none
  | _ + 1, '"' :: rest => Option.some ([], rest)
  | fuel + 1, '\\' :: esc =>
    match esc with
    | [] => Option.none
    | e :: r2 =>
      if e = 'u' then
        match parseHex4 r2 with
        | Option.none => Option.none
        | Option.some (n, r3) =>
          if 55296 ≤ n ∧ n < 56320 then
            match r3 with
            | '\\' :: 'u' :: r4 =>
              (match parseHex4 r4 with
               | Option.some (n2, r5) =>
                 if 56320 ≤ n2 ∧ n2 < 57344 then
                   (parseJStr fuel r5).map (fun p =>
                     (Char.ofNat (65536 + (n - 55296) * 1024 + (n2 - 56320)) :: p.1, p.2))
                 else
                   (parseJStr fuel r3).map (fun p => (Char.ofNat n :: p.1, p.2))
               | Option.none =>
                   (parseJStr fuel r3).map (fun p => (Char.ofNat n :: p.1, p.2)))
            | _ => (parseJStr fuel r3).map (fun p => (Char.ofNat n :: p.1, p.2))
          else (parseJStr fuel r3).map (fun p => (Char.ofNat n :: p.1, p.2))
      else
        match jsonEscTable e with
        | Option.some c => (parseJStr fuel r2).map (fun p => (c :: p.1, p.2))
        | Option.none => Option.none
  | fuel + 1, c :: rest =>
    if c.toNat < 32 then Option.none
    else (parseJStr fuel rest).map (fun p => (c :: p.1, p.2))

/-- Decimal digit test. -/
def isDigitCh (c : Char) : Bool := '0' ≤ c && c ≤ '9'

/-- Digits to a natural number. -/
def digitsToNat (ds : Str) : Nat :=
  ds.foldl (fun a c => a * 10 + (c.toNat - 48)) 0

/-- Fraction and exponent parts of a JSON number (the regex
`(\.\d+)?([eE][-+]?\d+)?`); ints stay `int`, anything with a fraction
or exponent becomes a float carrying its literal text. -/
def jsonNumTail (sgn ds : Str) (rest : Str) : PyVal × Str :=
  let fr := match rest with
    | '.' :: r2 =>
      let fd := r2.takeWhile isDigitCh
      if fd = [] then (([] : Str), rest)
      else ('.' :: fd, r2.dropWhile isDigitCh)
    | _ => ([], rest)
  let ex := match fr.2 with
    | e :: r3 =>
      if e = 'e' ∨ e = 'E' then
        let sgn2 : Str := match r3 with
          | c :: _ => if c = '+' ∨ c = '-' then [c] else []
          | [] => []
        let r4 := r3.drop sgn2.length
        let ed := r4.takeWhile isDigitCh
        if ed = [] then (([] : Str), fr.2)
        else (e :: sgn2 ++ ed, r4.dropWhile isDigitCh)
      else ([], fr.2)
    | [] => ([], fr.2)
  if fr.1 = [] ∧ ex.1 = [] then
    let n : Int := Int.ofNat (digitsToNat ds)
    (.int (if sgn = ['-'] then -n else n), rest)
  else (.float (sgn ++ ds ++ fr.1 ++ ex.1), ex.2)

/-- Parse a JSON number (`-?(0|[1-9]\d*)(\.\d+)?([eE][-+]?\d+)?`). -/
def parseNum (s : Str) : Option (PyVal × Str) :=
  let sgn : Str := match s with | '-' :: _ => ['-'] | _ => []
  let s1 := s.drop sgn.length
  match s1 with
  | '0' :: r => Option.some (jsonNumTail sgn ['0'] r)
  | c :: _ =>
    if isDigitCh c then
      Option.some (jsonNumTail sgn (s1.takeWhile isDigitCh) (s1.dropWhile isDigitCh))
    else Option.none
  | [] => Option.none

/-- Intermediate results of the recursive-descent JSON parser. -/
inductive JRes where
  | val (v : PyVal)
  | items (xs : List PyVal)
  | pairs (kvs : List (Str × PyVal))

/-- Parser modes: a value, the items of an array after `[`, or the
entries of an object after `{`. -/
inductive JMode where
  | value
  | arrItems
  | objItems

/-- Insert a key into an object under Python-dict semantics: a repeated
key keeps its first position but takes the last value. -/
def insertUpdate : List (Str × PyVal) → Str → PyVal → List (Str × PyVal)
  | [], k, v => [(k, v)]
  | (k', v') :: r, k, v =>
    if k' = k then (k', v) :: r else (k', v') :: insertUpdate r k v

/-- Build an object from its parsed entries in order. -/
def buildObj (kvs : List (Str × PyVal)) : List (Str × PyVal) :=
  kvs.foldl (fun acc kv => insertUpdate acc kv.1 kv.2) []

/-- Fuel-bounded recursive-descent parser implementing `json.loads`
(with its stock extensions `NaN`, `Infinity`, `-Infinity`). -/
def parseF : Nat → JMode → Str → Option (JRes × Str)
  | 0, _, _ => Option.none
  | fuel + 1, .value, s =>
    match s with
    | [] => Option.none
    | '"' :: cs =>
      (parseJStr (cs.length + 1) cs).map (fun p => (.val (.str p.1), p.2))
    | '[' :: cs =>
      (match skipWs cs with
       | ']' :: rest => Option.some (.val (.list []), rest)
       | s' =>
         match parseF fuel .arrItems s' with
         | Option.some (.items xs, rest) => Option.some (.val (.list xs), rest)
         | _ => Option.none)
    | c :: cs =>
      if c = Char.ofNat 123 then
        (match skipWs cs with
         | d :: rest =>
           if d = Char.ofNat 125 then Option.some (.val (.dict []), rest)
           else
             (match parseF fuel .objItems (d :: rest) with
              | Option.some (.pairs kvs, rest2) =>
                  Option.some (.val (.dict (buildObj kvs)), rest2)
              | _ => Option.none)
         | [] => Option.none)
      else if (sl "null").isPrefixOf s then Option.some (.val .none, s.drop 4)
      else if (sl "true").isPrefixOf s then Option.some (.val (.bool true), s.drop 4)
      else if (sl "false").isPrefixOf s then Option.some (.val (.bool false), s.drop 5)
      else if (sl "NaN").isPrefixOf s then Option.some (.val (.float (sl "nan")), s.drop 3)
      else if (sl "Infinity").isPrefixOf s then
        Option.some (.val (.float (sl "inf")), s.drop 8)
      else if (sl "-Infinity").isPrefixOf s then
        Option.some (.val (.float (sl "-inf")), s.drop 9)
      else (parseNum s).map (fun p => (.val p.1, p.2))
  | fuel + 1, .arrItems, s =>
    (match parseF fuel .value s with
     | Option.some (.val v, rest) =>
       (match skipWs rest with
        | ',' :: more =>
          (match parseF fuel .arrItems (skipWs more) with
           | Option.some (.items xs, rest2) => Option.some (.items (v :: xs), rest2)
           | _ => Option.none)
        | ']' :: rest2 => Option.some (.items [v], rest2)
        | _ => Option.none)
     | _ => Option.none)
  | fuel + 1, .objItems, s =>
    (match s with
     | '"' :: cs =>
       (match parseJStr (cs.length + 1) cs with
        | Option.some (k, rest) =>
          (match skipWs rest with
           | ':' :: r2 =>
             (match parseF fuel .value (skipWs r2) with
              | Option.some (.val v, r3) =>
                (match skipWs r3 with
                 | ',' :: more =>
                   (match parseF fuel .objItems (skipWs more) with
                    | Option.some (.pairs kvs, r4) =>
                        Option.some (.pairs ((k, v) :: kvs), r4)
                    | _ => Option.none)
                 | cb :: r4 =>
                   if cb = Char.ofNat 125 then Option.some (.pairs [(k, v)], r4)
                   else Option.none
                 | [] => Option.none)
              | _ => Option.none)
           | _ => Option.none)
        | Option.none => Option.none)
     | _ => Option.none)

/-- `json.loads`: parse one JSON value surrounded only by whitespace. -/
def jsonLoads (s : Str) : Option PyVal :=
  match parseF (2 * s.length + 4) .value (skipWs s) with
  | Option.some (.val v, rest) =>
      if skipWs rest = [] then Option.some v else Option.none
  | _ => Option.none

/-- `re.sub(r"^```json\s*", "", t, flags=re.IGNORECASE)`: the anchored
pattern strips a case-insensitive ```` ```json ```` prefix and the
whitespace run after it. -/
def stripFenceJson (t : Str) : Str :=
  if (t.take 7).map Char.toLower = sl "```json" then dropLeadWs (t.drop 7) else t

/-- `re.sub(r"^```\s*", "", t)`. -/
def stripFencePre (t : Str) : Str :=
  if t.take 3 = sl "```" then dropLeadWs (t.drop 3) else t

/-- `re.sub(r"\s*```$", "", t)`: strips a trailing ```` ``` ```` and the
whitespace run before it. -/
def stripFenceSuf (t : Str) : Str :=
  if t.reverse.take 3 = sl "```" then
    ((t.reverse.drop 3).dropWhile pyIsSpace).reverse
  else t

/-- The fence-stripping and trimming prelude of `_safe_json_from_text`:
`strip`, drop a ```` ```json ```` fence, a bare ```` ``` ```` fence, a
trailing fence, re-stripping in between. -/
def cleanedText (s : Str) : Str :=
  pyStrip (stripFenceSuf (pyStrip (stripFencePre (pyStrip (stripFenceJson (pyStrip s))))))

/-- `re.search(r"\{.*\}", t, flags=re.DOTALL)`: the greedy span from the
first opening brace to the last closing brace after it, if any. -/
def braceSpan (t : Str) : Option Str :=
  match t.dropWhile (fun c => c ≠ Char.ofNat 123) with
  | [] => Option.none
  | c :: r =>
    match (c :: r).reverse.dropWhile (fun ch => ch ≠ Char.ofNat 125) with
    | [] => Option.none
    | r2 => Option.some r2.reverse

/-- `Pipeline._safe_json_from_text` on a string argument: strip fences,
try a direct parse, try the brace span, fall back to a `raw` wrapper
holding the fence-stripped trimmed text.  (`(text or "")` is the
identity on the stripped value for string inputs.) -/
def safeJsonFromText (text : Str) : PyVal :=
  let t := cleanedText text
  match jsonLoads t with
  | Option.some v => v
  | Option.none =>
    match braceSpan t with
    | Option.some u =>
      (match jsonLoads u with
       | Option.some v => v
       | Option.none => .dict [(rawKey, .str t)])
    | Option.none => .dict [(rawKey, .str t)]

/-- Characters of the standard base64 alphabet plus padding; everything
else is discarded by `base64.b64decode` in non-validating mode. -/
def isB64Alpha (c : Char) : Bool :=
  ('A' ≤ c && c ≤ 'Z') || ('a' ≤ c && c ≤ 'z') || ('0' ≤ c && c ≤ '9') ||
  c == '+' || c == '/' || c == '='

/-- Sextet value of a base64 alphabet character. -/
def b64CharVal (c : Char) : Nat :=
  if 'A' ≤ c ∧ c ≤ 'Z' then c.toNat - 65
  else if 'a' ≤ c ∧ c ≤ 'z' then c.toNat - 71
  else if '0' ≤ c ∧ c ≤ '9' then c.toNat + 4
  else if c = '+' then 62 else 63

/-- Decode base64 data characters in groups of four sextets, with the
standard truncated final group handling. -/
def b64DecodeGroups : Str → List Nat
  | a :: b :: c :: d :: rest =>
    let x := ((b64CharVal a * 64 + b64CharVal b) * 64 + b64CharVal c) * 64 + b64CharVal d
    x / 65536 :: x / 256 % 256 :: x % 256 :: b64DecodeGroups rest
  | [a, b] => [b64CharVal a * 4 + b64CharVal b / 16]
  | [a, b, c] =>
    let y := (b64CharVal a * 64 + b64CharVal b) * 64 + b64CharVal c
    [y / 1024, y / 4 % 256]
  | _ => []

/-- `base64.b64decode` on a string: reject non-ASCII input, discard
characters outside the alphabet, then check the padding arithmetic
(`binascii` raises `Incorrect padding` or the one-more-than-a-multiple
message) and decode.  Exotic padding placements (padding inside the
data) are treated positionally, which no claim exercises. -/
def pyB64Decode (s : Str) : Except Str (List Nat) :=
  if s.any (fun c => c.toNat ≥ 128) then
    .error (sl "string argument should contain only ASCII characters")
  else
    let s1 := s.filter isB64Alpha
    let data := s1.filter (fun c => c ≠ '=')
    let padCount := s1.length - data.length
    let m := data.length % 4
    if m = 1 then
      .error (sl "Invalid base64-encoded string: number of data characters (" ++
        natToStr data.length ++ sl ") cannot be 1 more than a multiple of 4")
    else if m = 2 ∧ padCount < 2 then .error (sl "Incorrect padding")
    else if m = 3 ∧ padCount < 1 then .error (sl "Incorrect padding")
    else .ok (b64DecodeGroups data)

/-- `v.get(k, dflt)`: dict lookup with default; anything else raises
`AttributeError` because only dicts have `.get` here. -/
def pyGetAttrGet (v : PyVal) (k : Str) (dflt : PyVal) : Except Str PyVal :=
  match v with
  | .dict kvs => .ok ((alookup k kvs).getD dflt)
  | v => .error (attrMsg v (sl "get"))

/-- `v[-1]` as used on the `messages` value. -/
def pyIndexLast (v : PyVal) : Except Str PyVal :=
  match v with
  | .list xs =>
    (match xs.getLast? with
     | Option.some x => .ok x
     | Option.none => .error (sl "list index out of range"))
  | .str s =>
    (match s.getLast? with
     | Option.some c => .ok (.str [c])
     | Option.none => .error (sl "string index out of range"))
  | .dict _ => .error (sl "-1")
  | v => .error ([sqc] ++ pyTypeName v ++ [sqc] ++ sl " object is not subscriptable")

/-- `v[k]` for a string key (used for `item["image_url"]["url"]`). -/
def pyGetItem (v : PyVal) (k : Str) : Except Str PyVal :=
  match v with
  | .dict kvs =>
    (match alookup k kvs with
     | Option.some x => .ok x
     | Option.none => .error ([sqc] ++ k ++ [sqc]))
  | .str _ => .error (sl "string indices must be integers")
  | .list _ => .error (sl "list indices must be integers or slices, not str")
  | v => .error ([sqc] ++ pyTypeName v ++ [sqc] ++ sl " object is not subscriptable")

/-- `len(v)`. -/
def pyLen (v : PyVal) : Except Str Nat :=
  match v with
  | .list xs => .ok xs.length
  | .str s => .ok s.length
  | .dict kvs => .ok kvs.length
  | v =>
    .error (sl "object of type " ++ [sqc] ++ pyTypeName v ++ [sqc] ++
      sl " has no len()")

/-- The text-accumulation loop of `_extract_user_instruction_and_images`
over a list-shaped `content`: concatenate the `text` of each item whose
`type` equals `"text"`. -/
def extractTexts : List PyVal → Str → Except Str Str
  | [], acc => .ok acc
  | item :: rest, acc =>
    match pyGetAttrGet item (sl "type") .none with
    | .error e => .error e
    | .ok ty =>
      match ty with
      | .str tys =>
        if tys = sl "text" then
          match pyGetAttrGet item (sl "text") (.str []) with
          | .error e => .error e
          | .ok tv =>
            (match tv with
             | .str s2 => extractTexts rest (acc ++ s2)
             | v =>
               .error (sl "can only concatenate str (not \"" ++ pyTypeName v ++
                 sl "\") to str"))
        else extractTexts rest acc
      | _ => extractTexts rest acc

/-- The `image_url` collection loop of the extractor: wrap the nested
`item["image_url"]["url"]` of each `image_url` item. -/
def extractImageItems : List PyVal → Except Str (List PyVal)
  | [] => .ok []
  | item :: rest =>
    match pyGetAttrGet item (sl "type") .none with
    | .error e => .error e
    | .ok ty =>
      match ty with
      | .str tys =>
        if tys = sl "image_url" then
          match pyGetItem item (sl "image_url") with
          | .error e => .error e
          | .ok iu =>
            match pyGetItem iu (sl "url") with
            | .error e => .error e
            | .ok u =>
              (match extractImageItems rest with
               | .error e => .error e
               | .ok xs => .ok (.dict [(sl "url", u)] :: xs))
        else extractImageItems rest
      | _ => extractImageItems rest

/-- The instruction half of the extractor: a list-shaped `content` runs
the text loop, anything else is kept as `content or ""`. -/
def instrPartOf (content : PyVal) : Except Str PyVal :=
  match content with
  | .list items => (extractTexts items []).map .str
  | v => .ok (if pyTruthy v then v else .str [])

/-- The images half of the extractor: an `images` key, when present,
short-circuits (falsy values become `[]`); otherwise a list-shaped
`content` is scanned for `image_url` items. -/
def imagesPartOf (mkvs : List (Str × PyVal)) (content : PyVal) : Except Str PyVal :=
  if (alookup (sl "images") mkvs).isSome then
    let v := (alookup (sl "images") mkvs).getD .none
    .ok (if pyTruthy v then v else .list [])
  else
    match content with
    | .list items => (extractImageItems items).map .list
    | _ => .ok (.list [])

/-- `Pipeline._extract_user_instruction_and_images`.  Faithful to the
source order: the text loop runs first, then the images branch, then
the final `.strip()` (which raises on a non-string instruction). -/
def extractUserInstructionAndImages (body : PyVal) : Except Str (Str × PyVal) :=
  match body with
  | .dict bkvs =>
    let messages := (alookup (sl "messages") bkvs).getD (.list [])
    if pyTruthy messages then
      match pyIndexLast messages with
      | .error e => .error e
      | .ok lastMsg =>
        match lastMsg with
        | .dict mkvs =>
          let content := (alookup (sl "content") mkvs).getD (.str [])
          (match instrPartOf content with
           | .error e => .error e
           | .ok instrV =>
             match imagesPartOf mkvs content with
             | .error e => .error e
             | .ok imgs =>
               match instrV with
               | .str s => .ok (pyStrip s, imgs)
               | v => .error (attrMsg v (sl "strip")))
        | v => .error (attrMsg v (sl "get"))
    else .ok ([], .list [])
  | v => .error (attrMsg v (sl "get"))

/-- One collaborator call made during a run. -/
inductive CallEv where
  | vision (i : Nat) (b64 : Str)
  | gen (payload : PyVal)
  | store (bytes : List Nat) (filename : Str)

/-- The external world of a run: the vision chat call (endpoint, model
and the fixed JSON-traits prompt are constants folded into the oracle;
the result is the parsed `.json()` response or the raised error), the
generation call (`raise_for_status` plus `.json()` folded in), the
`_store_image_bytes` collaborator (local file write or S3 put returning
a URL or raising), and the `datetime.now()` timestamp. -/
structure Env where
  vision : Nat → Str → Except Str PyVal
  gen : PyVal → Except Str PyVal
  store : List Nat → Str → Except Str Str
  now : Str

/-- Outcome of iterating the `pipe` generator to exhaustion: the yielded
messages, the collaborator calls made, and the exception escaping the
generator's boundary, if any. -/
structure RunOut where
  msgs : List Str
  calls : List CallEv
  err : Option Str

/-- The configuration fields of `Pipeline.Valves` that the modelled
control flow reads (the endpoint/credential fields are folded into the
`Env` oracles). -/
structure Valves where
  gen_model : Str
  gen_size : Str
  gen_n : Int
  gen_response_format : Str

/-- The default valve settings from the source. -/
def valves0 : Valves :=
  ⟨sl "x/flux2-klein:latest", sl "1024x1024", 6, sl "b64_json"⟩

/-- `images[:2]` (a slice, so dicts raise `unhashable type`). -/
def pySliceTake2 (v : PyVal) : Except Str (List PyVal) :=
  match v with
  | .list xs => .ok (xs.take 2)
  | .str s => .ok ((s.take 2).map (fun c => PyVal.str [c]))
  | .dict _ => .error (sl "unhashable type: " ++ [sqc] ++ sl "slice" ++ [sqc])
  | v => .error ([sqc] ++ pyTypeName v ++ [sqc] ++ sl " object is not subscriptable")

/-- Iteration (`enumerate`) over the generation `data` value. -/
def pyIterate (v : PyVal) : Except Str (List PyVal) :=
  match v with
  | .list xs => .ok xs
  | .str s => .ok (s.map (fun c => PyVal.str [c]))
  | .dict kvs => .ok (kvs.map (fun kv => PyVal.str kv.1))
  | v => .error ([sqc] ++ pyTypeName v ++ [sqc] ++ sl " object is not iterable")

/-- The staged progress message for image `n`. -/
def analyzingMsg (n : Nat) : Str :=
  sl "STAGED: Analyzing image " ++ natToStr n ++ sl "..."

/-- `(resp.get("message") or {}).get("content", "")`. -/
def getRespContent (resp : PyVal) : Except Str PyVal :=
  match pyGetAttrGet resp (sl "message") .none with
  | .error e => .error e
  | .ok m =>
    let m2 := if pyTruthy m then m else .dict []
    pyGetAttrGet m2 (sl "content") (.str [])

/-- `_safe_json_from_text` on the runtime content value: `(text or "")`
turns falsy values into the empty string; a truthy non-string raises at
`.strip()`. -/
def safeJsonOfContent (text : PyVal) : Except Str PyVal :=
  let t := if pyTruthy text then text else .str []
  match t with
  | .str s => .ok (safeJsonFromText s)
  | v => .error (attrMsg v (sl "strip"))

/-- Phase 1 of `pipe`: one vision call per (at most two) image, yielding
the staged message, adapting the payload, and normalizing the response
text into a TraitSet. -/
def visionPhase (env : Env) : List PyVal → Nat → List Str × List CallEv × Except Str (List PyVal)
  | [], _ => ([], [], .ok [])
  | item :: rest, i =>
    let msg := analyzingMsg (i + 1)
    let imgUrl := match item with
      | .dict kvs => (alookup (sl "url") kvs).getD (.str [])
      | v => v
    let b64 := toB64Payload (pyStr imgUrl)
    let call := CallEv.vision i b64
    match env.vision i b64 with
    | .error e => ([msg], [call], .error e)
    | .ok resp =>
      match getRespContent resp with
      | .error e => ([msg], [call], .error e)
      | .ok text =>
        match safeJsonOfContent text with
        | .error e => ([msg], [call], .error e)
        | .ok tr =>
          match visionPhase env rest (i + 1) with
          | (ms, cs, .ok ts) => (msg :: ms, call :: cs, .ok (tr :: ts))
          | (ms, cs, .error e) => (msg :: ms, call :: cs, .error e)

/-- The composed generation prompt (Phase 2): fixed template, the two
compact trait lines, and the user-preferences suffix when the trimmed
instruction is truthy with length above 2. -/
def morphPrompt (p1 p2 : PyVal) (instr : Str) : Str :=
  let base :=
    sl "Photorealistic RAW image of the subject. Composite of attributes from both input images.\nImage 1 traits: " ++
    pyStr p1 ++ sl "\nImage 2 traits: " ++ pyStr p2 ++
    sl "\nCombine colors, textures, shapes, and composition elements naturally. Preserve realistic materials, proportions, and lighting appropriate to the subject and scene. Neutral background unless the scene suggests otherwise, natural lighting, accurate depth of field, and subtle film grain for realism. Avoid CGI, 3D renderings, illustrations, or obviously synthetic artifacts."
  if (!instr.isEmpty) && instr.length > 2 then
    base ++ sl "\nUser preferences: " ++ instr
  else base

/-- The OpenAI-images request payload (Phase 3). -/
def genPayload (valves : Valves) (prompt : Str) : PyVal :=
  .dict [(sl "model", .str valves.gen_model),
         (sl "prompt", .str prompt),
         (sl "n", .int valves.gen_n),
         (sl "size", .str valves.gen_size),
         (sl "response_format", .str valves.gen_response_format)]

/-- `f"{idx:02d}"` for the filename index. -/
def fmt02 (n : Nat) : Str := if n < 10 then '0' :: natToStr n else natToStr n

/-- Phase 4 storing loop over the candidates: items without a truthy
`b64_json` fall back to their `url` (appended when truthy, silently
skipped otherwise); inline payloads are whitespace-cleaned, decoded and
persisted.  Any raised exception aborts the loop. -/
def storeLoop (env : Env) (ts : Str) : List PyVal → Nat → List CallEv × List PyVal × Option Str
  | [], _ => ([], [], Option.none)
  | item :: rest, idx =>
    match pyGetAttrGet item (sl "b64_json") .none with
    | .error e => ([], [], Option.some e)
    | .ok b64v =>
      if pyTruthy b64v then
        match b64v with
        | .str s =>
          (match pyB64Decode (s.filter (fun c => !pyIsSpace c)) with
           | .error e => ([], [], Option.some e)
           | .ok bytes =>
             let fn := sl "morph_" ++ ts ++ sl "_" ++ fmt02 idx ++ sl ".png"
             let call := CallEv.store bytes fn
             match env.store bytes fn with
             | .error e => ([call], [], Option.some e)
             | .ok url =>
               (match storeLoop env ts rest (idx + 1) with
                | (cs, ls, r) => (call :: cs, PyVal.str url :: ls, r)))
        | v =>
          ([], [],
           Option.some (sl "expected string or bytes-like object, got " ++
             [sqc] ++ pyTypeName v ++ [sqc]))
      else
        match pyGetAttrGet item (sl "url") .none with
        | .error e => ([], [], Option.some e)
        | .ok urlv =>
          (match storeLoop env ts rest (idx + 1) with
           | (cs, ls, r) =>
             if pyTruthy urlv then (cs, urlv :: ls, r) else (cs, ls, r))

/-- The final gallery message. -/
def galleryMsg (valves : Valves) (prompt : Str) (links : List PyVal) : Str :=
  let md : List Str :=
    [sl "\n\n### Morph Results (multiple candidates)\n",
     sl "Model: `" ++ valves.gen_model ++ sl "`  \nSize: `" ++ valves.gen_size ++
       sl "`  \nCount: `" ++ natToStr links.length ++ sl "`\n",
     sl "Prompt used (compact):\n",
     sl "```text\n" ++ prompt ++ sl "\n```\n"] ++
    (links.enum.map (fun p =>
      sl "Candidate " ++ natToStr (p.1 + 1) ++ sl ":\n\n![](" ++ pyStr p.2 ++ sl ")\n"))
  List.intercalate (sl "\n") md

/-- The body of the `try` block of `pipe` (phases 1 through 4): returns
the yielded messages, the calls made, and the raised-but-not-yet-caught
exception when one occurs. -/
def tryBody (env : Env) (valves : Valves) (instr : Str) (images : PyVal) :
    List Str × List CallEv × Option Str :=
  match pySliceTake2 images with
  | .error e => ([], [], Option.some e)
  | .ok items =>
    match visionPhase env items 0 with
    | (ms, cs, .error e) => (ms, cs, Option.some e)
    | (ms, cs, .ok traits) =>
      match traits.get? 0, traits.get? 1 with
      | Option.some t0, Option.some t1 =>
        let p1 := traitsToCompactLine t0
        let p2 := traitsToCompactLine t1
        let prompt := morphPrompt p1 p2 instr
        let genMsg := sl "STAGED: Generating candidates..."
        let payload := genPayload valves prompt
        let gcall := CallEv.gen payload
        (match env.gen payload with
         | .error e => (ms ++ [genMsg], cs ++ [gcall], Option.some e)
         | .ok genResp =>
           match pyGetAttrGet genResp (sl "data") .none with
           | .error e => (ms ++ [genMsg], cs ++ [gcall], Option.some e)
           | .ok dataV =>
             let dataList := if pyTruthy dataV then dataV else .list []
             if pyTruthy dataList then
               let saveMsg := sl "STAGED: Saving results..."
               match pyIterate dataList with
               | .error e => (ms ++ [genMsg, saveMsg], cs ++ [gcall], Option.some e)
               | .ok itemsD =>
                 (match storeLoop env env.now itemsD 1 with
                  | (scs, _, Option.some e) =>
                    (ms ++ [genMsg, saveMsg], cs ++ [gcall] ++ scs, Option.some e)
                  | (scs, links, Option.none) =>
                    if links.isEmpty then
                      (ms ++ [genMsg, saveMsg,
                         sl "Error: Could not decode/store generated images."],
                       cs ++ [gcall] ++ scs, Option.none)
                    else
                      (ms ++ [genMsg, saveMsg, galleryMsg valves prompt links],
                       cs ++ [gcall] ++ scs, Option.none))
             else
               (ms ++ [genMsg,
                  sl "Error: No images returned. Raw response: " ++
                    (jsonDumps genResp).take 1200],
                cs ++ [gcall], Option.none))
      | _, _ => (ms, cs, Option.some (sl "list index out of range"))

/-- The insufficient-input message. -/
def uploadMsg : Str := sl "Please upload two images to morph."

/-- `Pipeline.pipe` as observed by a consumer iterating the generator to
exhaustion.  The extraction call and the `len(images)` guard run before
the `try` block, so their exceptions escape (`err`); every exception
inside the `try` is converted to the single terminal message. -/
def pipe (env : Env) (valves : Valves) (body : PyVal) : RunOut :=
  match extractUserInstructionAndImages body with
  | .error e => ⟨[], [], Option.some e⟩
  | .ok (instr, images) =>
    match pyLen images with
    | .error e => ⟨[], [], Option.some e⟩
    | .ok n =>
      if n < 2 then ⟨[uploadMsg], [], Option.none⟩
      else
        match tryBody env valves instr images with
        | (ms, cs, Option.some e) =>
          ⟨ms ++ [sl "\nPipeline error: " ++ e], cs, Option.none⟩
        | (ms, cs, Option.none) => ⟨ms, cs, Option.none⟩

/-! Helper lemmas about whitespace stripping and list scans. -/

theorem dropWhile_append_ne_nil {p : Char → Bool} :
    ∀ {l₁ : Str} (l₂ : Str), l₁.dropWhile p ≠ [] →
      (l₁ ++ l₂).dropWhile p = l₁.dropWhile p ++ l₂ := by
  intro l₁
  induction l₁ with
  | nil => intro l₂ h; exact absurd rfl h
  | cons a t ih =>
    intro l₂ h
    by_cases hp : p a
    · simp only [List.cons_append, List.dropWhile_cons, hp, if_true] at *
      exact ih l₂ h
    · simp [List.cons_append, List.dropWhile_cons, hp]

theorem dropWhile_append_all_sat {p : Char → Bool} :
    ∀ {w : Str} (l : Str), (∀ c ∈ w, p c = true) →
      (w ++ l).dropWhile p = l.dropWhile p := by
  intro w
  induction w with
  | nil => intro l _; rfl
  | cons a t ih =>
    intro l h
    have ha : p a = true := h a (List.mem_cons_self a t)
    simp only [List.cons_append, List.dropWhile_cons, ha, if_true]
    exact ih l (fun c hc => h c (List.mem_cons_of_mem a hc))

theorem mem_takeWhile_sat {p : Char → Bool} :
    ∀ {l : Str} {a : Char}, a ∈ l.takeWhile p → p a = true := by
  intro l
  induction l with
  | nil => intro a h; simp [List.takeWhile] at h
  | cons b t ih =>
    intro a h
    by_cases hp : p b
    · rw [List.takeWhile_cons_of_pos hp] at h
      rcases List.mem_cons.mp h with rfl | h2
      · exact hp
      · exact ih h2
    · rw [List.takeWhile_cons_of_neg hp] at h
      simp at h

theorem dropWhile_head_not {p : Char → Bool} :
    ∀ {l : Str} {a : Char} {r : Str}, l.dropWhile p = a :: r → p a = false := by
  intro l
  induction l with
  | nil => intro a r h; simp [List.dropWhile] at h
  | cons b t ih =>
    intro a r h
    by_cases hp : p b
    · rw [List.dropWhile_cons_of_pos hp] at h; exact ih h
    · rw [List.dropWhile_cons_of_neg hp] at h
      cases h; simpa using hp

theorem head?_append_left {α : Type} {l₁ : List α} (l₂ : List α) (h : l₁ ≠ []) :
    (l₁ ++ l₂).head? = l₁.head? := by
  cases l₁ with
  | nil => exact absurd rfl h
  | cons a t => rfl

theorem getLast?_append_right {α : Type} {l₂ : List α} (l₁ : List α) (h : l₂ ≠ []) :
    (l₁ ++ l₂).getLast? = l₂.getLast? := by
  rw [← List.head?_reverse, ← List.head?_reverse, List.reverse_append]
  exact head?_append_left _ (by simpa using h)

theorem dropTrailWs_decomp (l : Str) :
    ∃ w, l = dropTrailWs l ++ w ∧ ∀ c ∈ w, pyIsSpace c = true := by
  refine ⟨(l.reverse.takeWhile pyIsSpace).reverse, ?_, ?_⟩
  · have h1 : l.reverse = l.reverse.takeWhile pyIsSpace ++ l.reverse.dropWhile pyIsSpace :=
      (List.takeWhile_append_dropWhile pyIsSpace l.reverse).symm
    have h2 := congrArg List.reverse h1
    rw [List.reverse_reverse, List.reverse_append] at h2
    exact h2
  · intro c hc
    rw [List.mem_reverse] at hc
    exact mem_takeWhile_sat hc

theorem dropLeadWs_eq_self {l : Str}
    (h : ∀ c, l.head? = Option.some c → pyIsSpace c = false) :
    dropLeadWs l = l := by
  cases l with
  | nil => rfl
  | cons a t =>
    have := h a rfl
    simp [dropLeadWs, List.dropWhile_cons, this]

theorem dropTrailWs_eq_self {l : Str}
    (h : ∀ c, l.getLast? = Option.some c → pyIsSpace c = false) :
    dropTrailWs l = l := by
  unfold dropTrailWs
  cases hr : l.reverse with
  | nil =>
    have : l = [] := by simpa using congrArg List.reverse hr
    simp [this]
  | cons a t =>
    have ha : l.getLast? = Option.some a := by
      rw [← List.head?_reverse, hr]; rfl
    rw [List.dropWhile_cons_of_neg (by simp [h a ha])]
    rw [← hr, List.reverse_reverse]

theorem pyStrip_eq_self {l : Str}
    (h1 : ∀ c, l.head? = Option.some c → pyIsSpace c = false)
    (h2 : ∀ c, l.getLast? = Option.some c → pyIsSpace c = false) :
    pyStrip l = l := by
  unfold pyStrip
  rw [dropLeadWs_eq_self h1, dropTrailWs_eq_self h2]

theorem dropTrailWs_append_ws (l w : Str) (hw : ∀ c ∈ w, pyIsSpace c = true) :
    dropTrailWs (l ++ w) = dropTrailWs l := by
  unfold dropTrailWs
  rw [List.reverse_append]
  rw [dropWhile_append_all_sat l.reverse (by intro c hc; exact hw c (List.mem_reverse.mp hc))]

/-! Lemmas about the fence-stripping prelude of the response normalizer. -/

theorem stripFenceJson_eq_self_of_head {l : Str} {a : Char}
    (h : l.head? = Option.some a) (ha : Char.toLower a ≠ '`') :
    stripFenceJson l = l := by
  cases l with
  | nil => simp at h
  | cons b r =>
    have hb : b = a := by simpa using h
    subst hb
    unfold stripFenceJson
    rw [if_neg]
    intro hc
    rw [List.take_succ_cons, List.map_cons] at hc
    have := (List.cons.injEq _ _ _ _).mp hc
    exact ha (by simpa [sl] using this.1)

theorem stripFencePre_eq_self_of_head {l : Str} {a : Char}
    (h : l.head? = Option.some a) (ha : a ≠ '`') :
    stripFencePre l = l := by
  cases l with
  | nil => simp at h
  | cons b r =>
    have hb : b = a := by simpa using h
    subst hb
    unfold stripFencePre
    rw [if_neg]
    intro hc
    rw [List.take_succ_cons] at hc
    have := (List.cons.injEq _ _ _ _).mp hc
    exact ha (by simpa [sl] using this.1)

theorem stripFenceSuf_eq_self_of_last {l : Str} {a : Char}
    (h : l.getLast? = Option.some a) (ha : a ≠ '`') :
    stripFenceSuf l = l := by
  rw [← List.head?_reverse] at h
  cases hr : l.reverse with
  | nil => rw [hr] at h; simp at h
  | cons b r =>
    rw [hr] at h
    have hb : b = a := by simpa using h
    subst hb
    unfold stripFenceSuf
    rw [hr, if_neg]
    intro hc
    rw [List.take_succ_cons] at hc
    have := (List.cons.injEq _ _ _ _).mp hc
    exact ha (by simpa [sl] using this.1)

theorem stripFenceJson_fires (tag rest : Str)
    (htag : tag.map Char.toLower = sl "json") :
    stripFenceJson ((sl "```" ++ tag) ++ rest) = dropLeadWs rest := by
  have hlen : (sl "```" ++ tag).length = 7 := by
    have ht : tag.length = 4 := by
      have := congrArg List.length htag
      simpa [sl] using this
    simp [sl, ht]
  unfold stripFenceJson
  rw [List.take_left' hlen, List.drop_left' hlen]
  rw [if_pos]
  rw [List.map_append, htag]
  rfl

theorem stripFencePre_fires (rest : Str) :
    stripFencePre (sl "```" ++ rest) = dropLeadWs rest := by
  have hlen : (sl "```").length = 3 := by simp [sl]
  unfold stripFencePre
  rw [List.take_left' hlen, List.drop_left' hlen, if_pos rfl]

theorem stripFenceSuf_fires (l : Str) :
    stripFenceSuf (l ++ sl "\n```") = dropTrailWs l := by
  unfold stripFenceSuf
  rw [List.reverse_append]
  rw [show (sl "\n```").reverse = '`' :: '`' :: '`' :: '\n' :: [] from rfl]
  rw [if_pos (by simp [sl])]
  rw [show ('`' :: '`' :: '`' :: '\n' :: []) ++ l.reverse = '`' :: '`' :: '`' :: '\n' :: l.reverse from rfl]
  rw [show List.drop 3 ('`' :: '`' :: '`' :: '\n' :: l.reverse) = '\n' :: l.reverse from rfl]
  rw [List.dropWhile_cons_of_pos (by decide)]
  rfl

theorem stripFenceJson_nofire_nl (rest : Str) :
    stripFenceJson ('`' :: '`' :: '`' :: '\n' :: rest) = '`' :: '`' :: '`' :: '\n' :: rest := by
  unfold stripFenceJson
  rw [if_neg]
  intro h
  rw [List.take_succ_cons, List.take_succ_cons, List.take_succ_cons, List.take_succ_cons] at h
  simp only [List.map_cons] at h
  have h1 := (List.cons.injEq _ _ _ _).mp h
  have h2 := (List.cons.injEq _ _ _ _).mp h1.2
  have h3 := (List.cons.injEq _ _ _ _).mp h2.2
  have h4 := (List.cons.injEq _ _ _ _).mp h3.2
  exact absurd h4.1 (by decide)

theorem cleanedText_of_clean {t : Str}
    (hh : (pyStrip t).head? = Option.some '{')
    (hl : (pyStrip t).getLast? = Option.some '}') :
    cleanedText t = pyStrip t := by
  have hws1 : ∀ c, (pyStrip t).head? = Option.some c → pyIsSpace c = false := by
    intro c hc
    have : '{' = c := Option.some.inj (hh.symm.trans hc)
    subst this; decide
  have hws2 : ∀ c, (pyStrip t).getLast? = Option.some c → pyIsSpace c = false := by
    intro c hc
    have : '}' = c := Option.some.inj (hl.symm.trans hc)
    subst this; decide
  have e1 : stripFenceJson (pyStrip t) = pyStrip t :=
    stripFenceJson_eq_self_of_head hh (by decide)
  have e2 : pyStrip (pyStrip t) = pyStrip t := pyStrip_eq_self hws1 hws2
  have e3 : stripFencePre (pyStrip t) = pyStrip t :=
    stripFencePre_eq_self_of_head hh (by decide)
  have e4 : stripFenceSuf (pyStrip t) = pyStrip t :=
    stripFenceSuf_eq_self_of_last hl (by decide)
  unfold cleanedText
  rw [e1, e2, e3, e2, e4, e2]

theorem cleanedText_of_wrapped {t : Str} (tag : Str)
    (htag : tag = [] ∨ tag.map Char.toLower = sl "json")
    (hh : (pyStrip t).head? = Option.some '{')
    (hl : (pyStrip t).getLast? = Option.some '}') :
    cleanedText ((sl "```" ++ tag) ++ ('\n' :: (t ++ sl "\n```"))) = pyStrip t := by
  have hws1 : ∀ c, (pyStrip t).head? = Option.some c → pyIsSpace c = false := by
    intro c hc
    have : '{' = c := Option.some.inj (hh.symm.trans hc)
    subst this; decide
  have hws2 : ∀ c, (pyStrip t).getLast? = Option.some c → pyIsSpace c = false := by
    intro c hc
    have : '}' = c := Option.some.inj (hl.symm.trans hc)
    subst this; decide
  have hstst : pyStrip (pyStrip t) = pyStrip t := pyStrip_eq_self hws1 hws2
  have hs_ne : pyStrip t ≠ [] := by intro h; rw [h] at hh; simp at hh
  have hd_ne : dropLeadWs t ≠ [] := by
    intro h
    have h2 : pyStrip t = [] := by unfold pyStrip; rw [h]; rfl
    exact hs_ne h2
  obtain ⟨w, hw, hwsp⟩ := dropTrailWs_decomp (dropLeadWs t)
  have hdlw : dropLeadWs t = pyStrip t ++ w := hw
  have hdh : (dropLeadWs t).head? = Option.some '{' := by
    rw [hdlw, head?_append_left _ hs_ne]; exact hh
  have hrest : dropLeadWs ('\n' :: (t ++ sl "\n```")) = dropLeadWs t ++ sl "\n```" := by
    unfold dropLeadWs
    rw [List.dropWhile_cons_of_pos (by decide)]
    exact dropWhile_append_ne_nil _ hd_ne
  set r := dropLeadWs t ++ sl "\n```" with hr
  have hrh : r.head? = Option.some '{' := by
    rw [hr, head?_append_left _ hd_ne]; exact hdh
  have hrl : r.getLast? = Option.some '`' := by
    rw [hr, getLast?_append_right _ (by simp [sl])]; rfl
  have hrstrip : pyStrip r = r := by
    apply pyStrip_eq_self
    · intro c hc
      have : '{' = c := Option.some.inj (hrh.symm.trans hc)
      subst this; decide
    · intro c hc
      have : '`' = c := Option.some.inj (hrl.symm.trans hc)
      subst this; decide
  have hrpre : stripFencePre r = r := stripFencePre_eq_self_of_head hrh (by decide)
  have hrsuf : stripFenceSuf r = pyStrip t := by
    rw [hr, stripFenceSuf_fires]; rfl
  have hw0strip : pyStrip ((sl "```" ++ tag) ++ ('\n' :: (t ++ sl "\n```"))) =
      (sl "```" ++ tag) ++ ('\n' :: (t ++ sl "\n```")) := by
    apply pyStrip_eq_self
    · intro c hc
      rw [head?_append_left _ (by simp [sl])] at hc
      have h3 : (sl "```" ++ tag).head? = Option.some '`' := rfl
      have : '`' = c := Option.some.inj (h3.symm.trans hc)
      subst this; decide
    · intro c hc
      rw [show ((sl "```" ++ tag) ++ ('\n' :: (t ++ sl "\n```"))) =
          ((sl "```" ++ tag) ++ ('\n' :: t)) ++ sl "\n```" by simp] at hc
      rw [getLast?_append_right _ (by simp [sl])] at hc
      have h3 : (sl "\n```").getLast? = Option.some '`' := rfl
      have : '`' = c := Option.some.inj (h3.symm.trans hc)
      subst this; decide
  rcases htag with he | hj
  · subst he
    have hshape : (sl "```" ++ ([] : Str)) ++ ('\n' :: (t ++ sl "\n```")) =
        '`' :: '`' :: '`' :: '\n' :: (t ++ sl "\n```") := by simp [sl]
    have h1 : stripFenceJson ((sl "```" ++ ([] : Str)) ++ ('\n' :: (t ++ sl "\n```"))) =
        (sl "```" ++ ([] : Str)) ++ ('\n' :: (t ++ sl "\n```")) := by
      calc stripFenceJson ((sl "```" ++ ([] : Str)) ++ ('\n' :: (t ++ sl "\n```")))
          = stripFenceJson ('`' :: '`' :: '`' :: '\n' :: (t ++ sl "\n```")) := by rw [hshape]
        _ = '`' :: '`' :: '`' :: '\n' :: (t ++ sl "\n```") := stripFenceJson_nofire_nl _
        _ = (sl "```" ++ ([] : Str)) ++ ('\n' :: (t ++ sl "\n```")) := hshape.symm
    have h2 : stripFencePre ((sl "```" ++ ([] : Str)) ++ ('\n' :: (t ++ sl "\n```"))) =
        dropLeadWs ('\n' :: (t ++ sl "\n```")) := by
      rw [show ((sl "```" ++ ([] : Str)) ++ ('\n' :: (t ++ sl "\n```"))) =
          sl "```" ++ ('\n' :: (t ++ sl "\n```")) by simp]
      exact stripFencePre_fires _
    unfold cleanedText
    rw [hw0strip, h1, hw0strip, h2, hrest, hrstrip, hrsuf, hstst]
  · have hfire : stripFenceJson ((sl "```" ++ tag) ++ ('\n' :: (t ++ sl "\n```"))) =
        dropLeadWs ('\n' :: (t ++ sl "\n```")) := stripFenceJson_fires tag _ hj
    unfold cleanedText
    rw [hw0strip, hfire, hrest, hrstrip, hrpre, hrstrip, hrsuf, hstst]

/-! Spec-side definitions (for refinement-style comparisons) and
concrete fixtures used by witnesses and counterexamples. -/

/-- Modelled from the spec: one `"<key with underscores as spaces>: <value>"`
segment per vocabulary key present with a non-empty value, in the fixed
canonical order. -/
def specSegments (kvs : List (Str × PyVal)) : List Str :=
  keysOrder.filterMap (fun k =>
    match alookup k kvs with
    | Option.some (.str v) =>
      if v ≠ [] then Option.some (underscoreToSpace k ++ sl ": " ++ v)
      else Option.none
    | _ => Option.none)

/-- The shape asserted by the spec for every normalizer result: a
mapping whose keys are a subset of the 8-key vocabulary, or exactly the
single key `raw`. -/
def claimedNormalizerShape (v : PyVal) : Bool :=
  match v with
  | .dict kvs =>
    kvs.all (fun kv => keysOrder.contains kv.1) || (kvs.map Prod.fst == [rawKey])
  | _ => false

/-- The substring after the first comma (spec-side description of the
payload adapter's split). -/
def afterFirstComma (s : Str) : Str := (s.dropWhile (fun c => c ≠ ',')).tail

/-- Is the value a Python string? -/
def isStrPV : PyVal → Bool
  | .str _ => true
  | _ => false

/-- A stub environment whose collaborators all fail (never reached in
the runs it is used for). -/
def envStub : Env :=
  ⟨fun _ _ => .error (sl "stub"), fun _ => .error (sl "stub"),
   fun _ _ => .error (sl "stub"), sl "TS"⟩

/-- An environment whose vision collaborator returns plain text traits,
whose generation collaborator returns one decodable candidate followed
by one with invalid base64 padding, and whose storage always succeeds. -/
def envPartial : Env :=
  ⟨fun _ _ => .ok (.dict [(sl "message", .dict [(sl "content", .str (sl "x"))])]),
   fun _ => .ok (.dict [(sl "data",
     .list [.dict [(sl "b64_json", .str (sl "AAAA"))],
            .dict [(sl "b64_json", .str (sl "AB"))]])]),
   fun _ _ => .ok (sl "http://u/1"),
   sl "20260101_000000_000000"⟩

/-- A body whose latest message is a plain string: `last_msg.get` raises
`AttributeError` during extraction, before the `try` block. -/
def cbody1 : PyVal := .dict [(sl "messages", .list [.str (sl "hi")])]

/-- A body carrying two inline images in the latest message. -/
def cbody3 : PyVal :=
  .dict [(sl "messages",
    .list [.dict [(sl "content", .str (sl "m")),
                  (sl "images", .list [.str (sl "a"), .str (sl "b")])]])]

/-- A body carrying exactly one image. -/
def cbody8 : PyVal :=
  .dict [(sl "messages",
    .list [.dict [(sl "content", .str (sl "hi")),
                  (sl "images", .list [.str (sl "a")])]])]

/-- An `image_url` content item. -/
def imgUrlItem (u : Str) : PyVal :=
  .dict [(sl "type", .str (sl "image_url")),
         (sl "image_url", .dict [(sl "url", .str u)])]

/-- A body whose latest message carries two `image_url` content items
alongside an empty `images` field. -/
def cbody9 : PyVal :=
  .dict [(sl "messages",
    .list [.dict [(sl "content", .list [imgUrlItem (sl "u1"), imgUrlItem (sl "u2")]),
                  (sl "images", .list [])]])]

/-- Clean JSON object text for the fence-wrapping witness. -/
def c7t : Str := sl "\x7b\"a\": \"b\"\x7d"

/-- Scrambled-order trait mappings for the compactor witness. -/
def cw5a : List (Str × PyVal) :=
  [(sl "style", .str (sl "s")), (sl "lighting", .str (sl "l"))]

/-- The same mapping as `cw5a` with the opposite insertion order. -/
def cw5b : List (Str × PyVal) :=
  [(sl "lighting", .str (sl "l")), (sl "style", .str (sl "s"))]

/-- Two-entry mapping outside the vocabulary. -/
def c6a : List (Str × PyVal) := [(sl "a", .str (sl "1")), (sl "b", .str (sl "2"))]

/-- The same entries as `c6a` in the opposite insertion order. -/
def c6b : List (Str × PyVal) := [(sl "b", .str (sl "2")), (sl "a", .str (sl "1"))]

/-- Association lookup only ever returns stored bindings. -/
theorem alookup_mem {k : Str} {v : PyVal} :
    ∀ {l : List (Str × PyVal)}, alookup k l = Option.some v → (k, v) ∈ l := by
  intro l
  induction l with
  | nil => intro h; simp [alookup] at h
  | cons kv r ih =>
    intro h
    rcases kv with ⟨k', v'⟩
    by_cases hk : k' = k
    · subst hk
      rw [alookup, if_pos rfl] at h
      have : v' = v := Option.some.inj h
      subst this
      exact List.mem_cons_self _ _
    · rw [alookup, if_neg hk] at h
      exact List.mem_cons_of_mem _ (ih h)

/-! The claim theorems. -/

/-- C1 (counterexample): on a body whose latest message is a plain
string, the extraction call at the top of `pipe` raises
`AttributeError` before the `try` block, so the exception escapes the
generator boundary with nothing yielded. -/
theorem c1_counterexample :
    pipe envStub valves0 cbody1 =
      ⟨[], [], Option.some ([sqc] ++ sl "str" ++ [sqc] ++
        sl " object has no attribute " ++ [sqc] ++ sl "get" ++ [sqc])⟩ := rfl

/-- C1 (amended): whenever extraction and the pre-`try` length check
succeed, no exception escapes `pipe`: every failure inside the staged
`try` block is converted to the terminal message. -/
theorem c1_no_raise_inside_try (env : Env) (valves : Valves) (body : PyVal)
    (instr : Str) (images : PyVal) (n : Nat)
    (hex : extractUserInstructionAndImages body = .ok (instr, images))
    (hlen : pyLen images = .ok n) :
    (pipe env valves body).err = Option.none := by
  unfold pipe
  simp only [hex, hlen]
  by_cases h : n < 2
  · rw [if_pos h]
  · rw [if_neg h]
    rcases htb : tryBody env valves instr images with ⟨ms, cs, e⟩
    cases e <;> rfl

/-- C1 (witness): a run that fails inside the `try` block (all
collaborators error) still ends with no escaping exception. -/
theorem c1_witness : (pipe envStub valves0 cbody3).err = Option.none :=
  c1_no_raise_inside_try envStub valves0 cbody3 (sl "m")
    (.list [.str (sl "a"), .str (sl "b")]) 2 rfl rfl

/-- C8: a body whose latest turn yields fewer than two images makes
`pipe` emit exactly the single upload message and stop, with no
collaborator call and no escaping exception, for every environment. -/
theorem c8_insufficient_input (env : Env) (valves : Valves) (body : PyVal)
    (instr : Str) (images : PyVal) (n : Nat)
    (hex : extractUserInstructionAndImages body = .ok (instr, images))
    (hlen : pyLen images = .ok n) (hn : n < 2) :
    pipe env valves body = ⟨[uploadMsg], [], Option.none⟩ := by
  unfold pipe
  simp only [hex, hlen]
  rw [if_pos hn]

/-- C8 (witness): the one-image body stops with the single message. -/
theorem c8_witness : pipe envStub valves0 cbody8 = ⟨[uploadMsg], [], Option.none⟩ :=
  c8_insufficient_input envStub valves0 cbody8 (sl "hi") (.list [.str (sl "a")]) 1
    rfl rfl (by decide)

/-- C10: `_to_b64_payload` returns the substring after the first comma
exactly when the string has a comma and mentions `base64` in its first
60 characters, and is the identity otherwise (and, being total, never
raises). -/
theorem c10_payload_adapter (s : Str) :
    ((',' ∈ s) ∧ strContainsSub (s.take 60) (sl "base64") →
      (∃ a, s = a ++ ',' :: afterFirstComma s ∧ ',' ∉ a) ∧
      toB64Payload s = afterFirstComma s) ∧
    (¬((',' ∈ s) ∧ strContainsSub (s.take 60) (sl "base64")) →
      toB64Payload s = s) := by
  constructor
  · intro hc
    have hd_ne : s.dropWhile (fun c => c ≠ ',') ≠ [] := by
      intro h
      have hall := List.dropWhile_eq_nil_iff.mp h
      have := hall ',' hc.1
      simp at this
    obtain ⟨b, hb⟩ : ∃ b, s.dropWhile (fun c => c ≠ ',') = ',' :: b := by
      cases hdd : s.dropWhile (fun c => c ≠ ',') with
      | nil => exact absurd hdd hd_ne
      | cons x xs =>
        have hx := dropWhile_head_not hdd
        have : x = ',' := by simpa using hx
        exact ⟨xs, by rw [this]⟩
    have hsplit : s = s.takeWhile (fun c => c ≠ ',') ++ ',' :: b := by
      conv_lhs => rw [← List.takeWhile_append_dropWhile (fun c => c ≠ ',') s]
      rw [hb]
    have hafter : afterFirstComma s = b := by
      unfold afterFirstComma
      rw [hb]
      rfl
    refine ⟨⟨s.takeWhile (fun c => c ≠ ','), by rw [hafter]; exact hsplit, ?_⟩, ?_⟩
    · intro hmem
      have := mem_takeWhile_sat hmem
      simp at this
    · unfold toB64Payload
      rw [if_pos hc]
      unfold pySplitComma1
      rw [hb, hafter]
      rfl
  · intro hc
    unfold toB64Payload
    rw [if_neg hc]

/-- C10 (witness): a data URL is stripped to its payload. -/
theorem c10_witness :
    toB64Payload (sl "data:image/png;base64,AAAA") = sl "AAAA" := by
  have h := ((c10_payload_adapter (sl "data:image/png;base64,AAAA")).1
    ⟨by decide, by decide⟩).2
  rw [h]
  rfl

/-- C4 (counterexample): on fenced non-JSON input the `raw` value is the
fence-stripped text, not the original trimmed text. -/
theorem c4_counterexample :
    safeJsonFromText (sl "``` hello") = PyVal.dict [(rawKey, .str (sl "hello"))] ∧
    sl "hello" ≠ pyStrip (sl "``` hello") := ⟨rfl, by decide⟩

/-- C4 (amended): when the direct parse and the brace-span parse both
fail, the normalizer returns the single-entry `raw` object holding the
fence-stripped, whitespace-trimmed text. -/
theorem c4_amended_raw_value (s : Str)
    (h1 : jsonLoads (cleanedText s) = Option.none)
    (h2 : ∀ u, braceSpan (cleanedText s) = Option.some u → jsonLoads u = Option.none) :
    safeJsonFromText s = PyVal.dict [(rawKey, .str (cleanedText s))] := by
  simp only [safeJsonFromText]
  rw [h1]
  cases hb : braceSpan (cleanedText s) with
  | none => rfl
  | some u => simp only [h2 u hb]

/-- C4 (witness): unparseable fence-free text falls back to `raw`. -/
theorem c4_witness :
    safeJsonFromText (sl "nope") = PyVal.dict [(rawKey, .str (cleanedText (sl "nope")))] :=
  c4_amended_raw_value (sl "nope") rfl (fun u hu => by
    rw [show braceSpan (cleanedText (sl "nope")) = Option.none from rfl] at hu
    cases hu)

/-- C2 (counterexample): parsing succeeds on an object with a key
outside the vocabulary, so the result is neither a partial 8-key
mapping nor the single `raw` key. -/
theorem c2_counterexample :
    safeJsonFromText (sl "\x7b\"foo\": \"bar\"\x7d") =
      PyVal.dict [(sl "foo", .str (sl "bar"))] ∧
    claimedNormalizerShape (PyVal.dict [(sl "foo", .str (sl "bar"))]) = false :=
  ⟨rfl, rfl⟩

/-- C2 (amended): the normalizer is total (never raises) and returns
either a value produced by a successful JSON parse (of arbitrary shape,
not restricted to the vocabulary) or exactly the single-entry `raw`
object holding the cleaned text. -/
theorem c2_amended_shape (s : Str) :
    (∃ u, jsonLoads u = Option.some (safeJsonFromText s)) ∨
    safeJsonFromText s = PyVal.dict [(rawKey, .str (cleanedText s))] := by
  cases h1 : jsonLoads (cleanedText s) with
  | some v =>
    refine Or.inl ⟨cleanedText s, ?_⟩
    simp [safeJsonFromText, h1]
  | none =>
    cases hb : braceSpan (cleanedText s) with
    | none => exact Or.inr (by simp [safeJsonFromText, h1, hb])
    | some u =>
      cases h2 : jsonLoads u with
      | some v =>
        refine Or.inl ⟨u, ?_⟩
        simp [safeJsonFromText, h1, hb, h2]
      | none => exact Or.inr (by simp [safeJsonFromText, h1, hb, h2])

/-- C7: parsing clean JSON object text yields the same object whether or
not it is wrapped in a (possibly `json`-tagged, case-insensitive)
markdown fence. -/
theorem c7_fence_invariance (t tag : Str) (j : PyVal)
    (htag : tag = [] ∨ tag.map Char.toLower = sl "json")
    (hparse : jsonLoads (pyStrip t) = Option.some j)
    (hh : (pyStrip t).head? = Option.some '{')
    (hl : (pyStrip t).getLast? = Option.some '}') :
    safeJsonFromText ((sl "```" ++ tag) ++ ('\n' :: (t ++ sl "\n```"))) =
      safeJsonFromText t ∧
    safeJsonFromText t = j := by
  have hc := cleanedText_of_clean hh hl
  have hw := cleanedText_of_wrapped tag htag hh hl
  constructor
  · simp only [safeJsonFromText, hc, hw]
  · simp only [safeJsonFromText, hc, hparse]

/-- C7 (witness): a concrete object wrapped in an uppercase-tagged
fence parses to the same object as the bare text. -/
theorem c7_witness :
    safeJsonFromText ((sl "```" ++ sl "JSON") ++ ('\n' :: (c7t ++ sl "\n```"))) =
      safeJsonFromText c7t ∧
    safeJsonFromText c7t = PyVal.dict [(sl "a", .str (sl "b"))] :=
  c7_fence_invariance c7t (sl "JSON") (PyVal.dict [(sl "a", .str (sl "b"))])
    (Or.inr (by decide)) rfl rfl rfl

/-- C6 (counterexample): two mappings with the same key-value pairs but
opposite insertion order hit the `json.dumps` fallback and produce
different strings (`json.dumps` is called without `sort_keys`). -/
theorem c6_counterexample :
    c6a.Perm c6b ∧
    traitsToCompactLine (.dict c6a) ≠ traitsToCompactLine (.dict c6b) := by
  constructor
  · exact List.Perm.swap _ _ _
  · intro h
    have h2 : PyVal.str (sl "\x7b\"a\": \"1\", \"b\": \"2\"\x7d") =
        PyVal.str (sl "\x7b\"b\": \"2\", \"a\": \"1\"\x7d") := h
    have h3 := PyVal.str.inj h2
    exact absurd h3 (by decide)

/-- C6 (amended): with no recognized key carrying a truthy value and not
in fallback form, the compactor returns `json.dumps` of the whole
object — deterministic in the mapping's insertion order, though not
invariant under reordering. -/
theorem c6_amended_dumps (d : List (Str × PyVal))
    (hnf : ¬((alookup rawKey d).isSome ∧ d.length = 1))
    (hnov : ∀ k ∈ keysOrder, pyTruthy ((alookup k d).getD .none) = false) :
    traitsToCompactLine (.dict d) = .str (jsonDumps (.dict d)) := by
  simp only [traitsToCompactLine]
  rw [if_neg hnf]
  have hparts : (keysOrder.filterMap (fun k =>
      if pyTruthy ((alookup k d).getD .none) then
        Option.some (underscoreToSpace k ++ sl ": " ++ pyStr ((alookup k d).getD .none))
      else Option.none)) = [] := by
    rw [List.filterMap_eq_nil_iff]
    intro k hk
    rw [hnov k hk]
    rfl
  rw [hparts]
  simp

/-- C6 (witness): a single-entry off-vocabulary mapping serializes via
`json.dumps`. -/
theorem c6_witness :
    traitsToCompactLine (.dict [(sl "x", .str (sl "y"))]) =
      .str (jsonDumps (.dict [(sl "x", .str (sl "y"))])) :=
  c6_amended_dumps [(sl "x", .str (sl "y"))] (by decide) (by decide)

/-- C3 (counterexample): the first candidate decodes and stores
successfully, the second candidate's base64 payload fails to decode,
and the whole run aborts with the terminal pipeline error instead of
emitting the gallery of stored assets. -/
theorem c3_counterexample :
    (pipe envPartial valves0 cbody3).msgs =
      [analyzingMsg 1, analyzingMsg 2, sl "STAGED: Generating candidates...",
       sl "STAGED: Saving results...", sl "\nPipeline error: Incorrect padding"] ∧
    (pipe envPartial valves0 cbody3).calls.drop 3 =
      [CallEv.store [0, 0, 0] (sl "morph_20260101_000000_000000_01.png")] ∧
    envPartial.store [0, 0, 0] (sl "morph_20260101_000000_000000_01.png") =
      .ok (sl "http://u/1") :=
  ⟨rfl, rfl, rfl⟩

/-- C3 (amended): a candidate with neither a truthy `b64_json` nor a
truthy `url` is skipped without aborting, but a decode failure on any
candidate raises and aborts the whole storing loop regardless of
earlier successes. -/
theorem c3_amended_store_behavior :
    (∀ (env : Env) (ts : Str) (idx : Nat) (kvs : List (Str × PyVal))
       (rest : List PyVal),
      pyTruthy ((alookup (sl "b64_json") kvs).getD .none) = false →
      pyTruthy ((alookup (sl "url") kvs).getD .none) = false →
      storeLoop env ts (.dict kvs :: rest) idx = storeLoop env ts rest (idx + 1)) ∧
    (∀ (env : Env) (ts : Str) (idx : Nat) (kvs : List (Str × PyVal))
       (rest : List PyVal) (s e : Str),
      alookup (sl "b64_json") kvs = Option.some (.str s) → s ≠ [] →
      pyB64Decode (s.filter (fun c => !pyIsSpace c)) = .error e →
      storeLoop env ts (.dict kvs :: rest) idx = ([], [], Option.some e)) := by
  constructor
  · intro env ts idx kvs rest h1 h2
    simp only [storeLoop, pyGetAttrGet]
    rw [h1, h2]
    rcases storeLoop env ts rest (idx + 1) with ⟨cs, ls, r⟩
    simp
  · intro env ts idx kvs rest s e hb hne hdec
    simp only [storeLoop, pyGetAttrGet]
    rw [hb]
    have ht : pyTruthy ((Option.some (PyVal.str s)).getD .none) = true := by
      simp [pyTruthy, hne]
    rw [ht]
    simp only [Option.getD]
    rw [hdec]
    simp

/-- C3 (witness): a field-less candidate is skipped; an invalid-padding
candidate aborts with the `binascii` message. -/
theorem c3_witness :
    storeLoop envStub (sl "T") [.dict []] 1 = storeLoop envStub (sl "T") [] 2 ∧
    storeLoop envStub (sl "T") [.dict [(sl "b64_json", .str (sl "AB"))]] 1 =
      ([], [], Option.some (sl "Incorrect padding")) :=
  ⟨c3_amended_store_behavior.1 envStub (sl "T") 1 [] [] rfl rfl,
   c3_amended_store_behavior.2 envStub (sl "T") 1 [(sl "b64_json", .str (sl "AB"))]
     [] (sl "AB") (sl "Incorrect padding") rfl (by decide) rfl⟩

/-- Pointwise-equal selectors filter-map to the same list. -/
theorem filterMapCongr {α β : Type} {f g : α → Option β} :
    ∀ {l : List α}, (∀ x ∈ l, f x = g x) → l.filterMap f = l.filterMap g := by
  intro l
  induction l with
  | nil => intro _; rfl
  | cons a t ih =>
    intro h
    rw [List.filterMap_cons, List.filterMap_cons, h a (List.mem_cons_self a t),
      ih (fun x hx => h x (List.mem_cons_of_mem a hx))]

/-- C5: on a string-valued, non-fallback trait mapping with at least one
recognized key carrying a non-empty value, the compactor's output
depends only on the key lookups (insertion order is irrelevant) and
equals the spec-side segments — one per present non-empty vocabulary
key, in the fixed canonical order — joined with `"; "`. -/
theorem c5_canonical_order (d₁ d₂ : List (Str × PyVal))
    (hvals : ∀ kv ∈ d₁, isStrPV kv.2 = true)
    (hnf₁ : ¬((alookup rawKey d₁).isSome ∧ d₁.length = 1))
    (hnf₂ : ¬((alookup rawKey d₂).isSome ∧ d₂.length = 1))
    (hagree : ∀ k ∈ keysOrder, alookup k d₁ = alookup k d₂)
    (hsome : ∃ k, k ∈ keysOrder ∧ pyTruthy ((alookup k d₁).getD .none) = true) :
    traitsToCompactLine (.dict d₁) = traitsToCompactLine (.dict d₂) ∧
    traitsToCompactLine (.dict d₁) =
      .str (List.intercalate (sl "; ") (specSegments d₁)) := by
  have hfm : keysOrder.filterMap (fun k =>
      if pyTruthy ((alookup k d₁).getD .none) = true then
        Option.some (underscoreToSpace k ++ sl ": " ++ pyStr ((alookup k d₁).getD .none))
      else Option.none) =
    keysOrder.filterMap (fun k =>
      if pyTruthy ((alookup k d₂).getD .none) = true then
        Option.some (underscoreToSpace k ++ sl ": " ++ pyStr ((alookup k d₂).getD .none))
      else Option.none) :=
    filterMapCongr (fun k hk => by rw [hagree k hk])
  have hspec : keysOrder.filterMap (fun k =>
      if pyTruthy ((alookup k d₁).getD .none) = true then
        Option.some (underscoreToSpace k ++ sl ": " ++ pyStr ((alookup k d₁).getD .none))
      else Option.none) = specSegments d₁ := by
    unfold specSegments
    apply filterMapCongr
    intro k hk
    cases halk : alookup k d₁ with
    | none => simp [pyTruthy]
    | some v =>
      have hv := hvals (k, v) (alookup_mem halk)
      cases v with
      | str vs =>
        simp only [Option.getD]
        by_cases hs : vs = []
        · subst hs; simp [pyTruthy, pyStr]
        · simp [pyTruthy, pyStr, hs, List.isEmpty_iff]
      | none => simp [isStrPV] at hv
      | bool b => simp [isStrPV] at hv
      | int n => simp [isStrPV] at hv
      | float l => simp [isStrPV] at hv
      | list xs => simp [isStrPV] at hv
      | dict kvs => simp [isStrPV] at hv
  have hne : keysOrder.filterMap (fun k =>
      if pyTruthy ((alookup k d₁).getD .none) = true then
        Option.some (underscoreToSpace k ++ sl ": " ++ pyStr ((alookup k d₁).getD .none))
      else Option.none) ≠ [] := by
    intro h
    obtain ⟨k, hk, htr⟩ := hsome
    have := List.filterMap_eq_nil_iff.mp h k hk
    rw [htr] at this
    simp at this
  constructor
  · simp only [traitsToCompactLine]
    rw [if_neg hnf₁, if_neg hnf₂, if_neg hne, if_neg (hfm ▸ hne), hfm]
  · simp only [traitsToCompactLine]
    rw [if_neg hnf₁, if_neg hne, hspec]

/-- C5 (witness): the scrambled two-key mapping compacts identically in
either insertion order and matches the spec-side canonical segments. -/
theorem c5_witness :
    traitsToCompactLine (.dict cw5a) = traitsToCompactLine (.dict cw5b) ∧
    traitsToCompactLine (.dict cw5a) =
      .str (List.intercalate (sl "; ") (specSegments cw5a)) :=
  c5_canonical_order cw5a cw5b (by decide) (by decide) (by decide)
    (by
      intro k hk
      simp only [keysOrder, List.mem_cons, List.not_mem_nil, or_false] at hk
      rcases hk with rfl | rfl | rfl | rfl | rfl | rfl | rfl | rfl <;> rfl)
    ⟨sl "style", by decide, rfl⟩

/-- C9: an `images` key holding a falsy value (`None` or `[]`) makes the
extractor return the empty list without collecting `image_url` content
items, and the concrete request carrying two `image_url` items next to
an empty `images` field ends in the Insufficient-Input state. -/
theorem c9_falsy_images (env : Env) (valves : Valves)
    (bkvs mkvs : List (Str × PyVal)) (msgs : List PyVal) (v : PyVal)
    (instr : Str) (imgs : PyVal)
    (hmsg : alookup (sl "messages") bkvs = Option.some (.list msgs))
    (hne : msgs ≠ [])
    (hlast : msgs.getLast? = Option.some (.dict mkvs))
    (himg : alookup (sl "images") mkvs = Option.some v)
    (hfalsy : v = .none ∨ v = .list [])
    (hok : extractUserInstructionAndImages (.dict bkvs) = .ok (instr, imgs)) :
    imgs = .list [] ∧ pipe env valves cbody9 = ⟨[uploadMsg], [], Option.none⟩ := by
  refine ⟨?_, rfl⟩
  have himages : imagesPartOf mkvs ((alookup (sl "content") mkvs).getD (.str [])) =
      .ok (.list []) := by
    simp only [imagesPartOf]
    rw [himg]
    have hf : pyTruthy v = false := by
      rcases hfalsy with rfl | rfl <;> rfl
    simp [hf]
  simp only [extractUserInstructionAndImages] at hok
  rw [hmsg, Option.getD_some] at hok
  have htr : pyTruthy (PyVal.list msgs) = true := by
    simp [pyTruthy, List.isEmpty_iff, hne]
  rw [htr] at hok
  simp only [if_true] at hok
  simp only [pyIndexLast] at hok
  rw [hlast] at hok
  simp only at hok
  rw [himages] at hok
  rcases hip : instrPartOf ((alookup (sl "content") mkvs).getD (.str [])) with e | iv
  · rw [hip] at hok
    exact Except.noConfusion hok
  · rw [hip] at hok
    cases iv with
    | str s =>
      have hp := Except.ok.inj hok
      exact (Prod.mk.injEq _ _ _ _).mp hp |>.2.symm
    | none => exact Except.noConfusion hok
    | bool b => exact Except.noConfusion hok
    | int n => exact Except.noConfusion hok
    | float l => exact Except.noConfusion hok
    | list xs => exact Except.noConfusion hok
    | dict kvs => exact Except.noConfusion hok

/-- C9 (witness): concrete instantiation of the falsy-`images` body. -/
theorem c9_witness :
    (PyVal.list [] : PyVal) = .list [] ∧
    pipe envStub valves0 cbody9 = ⟨[uploadMsg], [], Option.none⟩ :=
  c9_falsy_images envStub valves0
    [(sl "messages", .list [.dict [(sl "content",
        .list [imgUrlItem (sl "u1"), imgUrlItem (sl "u2")]),
      (sl "images", .list [])]])]
    [(sl "content", .list [imgUrlItem (sl "u1"), imgUrlItem (sl "u2")]),
     (sl "images", .list [])]
    [.dict [(sl "content", .list [imgUrlItem (sl "u1"), imgUrlItem (sl "u2")]),
            (sl "images", .list [])]]
    (.list []) [] (.list [])
    rfl (List.cons_ne_nil _ _) rfl rfl (Or.inr rfl) rfl
